import Mathlib

/-!
Shallow embedding of the Morpheus LLM task-execution engine core and the FIL
preprocessing stage, with theorems checking the natural-language specification
against it.

The repository excerpt under verification contains:
* `morpheus/llm/services/llm_service.py` — the abstract `LLMClient` /
  `LLMService` interfaces (declarations only; concrete clients such as the
  NeMo and OpenAI services are not part of the excerpt);
* `morpheus/stages/preprocess/preprocess_fil_stage.py` — the FIL
  preprocessing stage (full source);
* tests exercising the LLM engine (`tests/llm/test_completion_pipe.py`),
  whose engine, node, and handler implementations are likewise outside the
  excerpt.

Where the deciding code is missing from the excerpt (the engine, the nodes,
the task handler, and the concrete behaviour behind the abstract client and
service interfaces), the corresponding Lean definitions are modelled from the
specification's words and are marked `Modelled from the spec:` in their doc
comments.  The FIL stage definitions are translated directly from the Python
source.
-/

namespace Morpheus

/-- Error raised by an LLM backend for a single generation request. -/
inductive GenError where
  | backend (msg : String)
deriving DecidableEq, Repr

/-- Configuration errors: bad DAG wiring, duplicate node names, unknown or
empty model names.  Always fatal at setup time. -/
inductive ConfigError where
  | duplicateName (name : String)
  | unknownInput (node inp : String)
  | selfReference (name : String)
  | emptyModelName
  | unknownModel (name : String)
deriving DecidableEq, Repr

/-! ### Generation client batch operations (claims C1 and C2)

`LLMClient.generate_batch` / `generate_batch_async` take
`inputs : dict[str, list]` — a mapping from input names to equal-length value
sequences — together with a `return_exceptions` flag.  The abstract interface
in `llm_service.py` fixes only the signatures; the batch semantics below are
modelled from the spec.  A backend is abstracted as a per-item function
`gen : List (String × Option V) → Except GenError String` from one item's
named inputs to text or a backend error. -/

/-- The number of items in a batched input mapping: the length of the first
key's sequence (all sequences share one common length for a well-formed
call). -/
def numItems {V : Type} (inputs : List (String × List V)) : Nat :=
  match inputs with
  | [] => 0
  | kv :: _ => kv.2.length

/-- The `i`-th item of a batched input mapping: each input name paired with
the `i`-th element of its sequence. -/
def itemAt {V : Type} (inputs : List (String × List V)) (i : Nat) :
    List (String × Option V) :=
  inputs.map (fun kv => (kv.1, kv.2.get? i))

/-- The per-item view of a batched input mapping, in the original order. -/
def batchItems {V : Type} (inputs : List (String × List V)) :
    List (List (String × Option V)) :=
  (List.range (numItems inputs)).map (itemAt inputs)

/-- Collect every per-item result, aborting on the first error
(`return_exceptions=False` semantics). -/
def collectOrRaise {α ε σ : Type} (gen : α → Except ε σ) :
    List α → Except ε (List σ)
  | [] => .ok []
  | x :: xs =>
    match gen x with
    | .error e => .error e
    | .ok s =>
      match collectOrRaise gen xs with
      | .error e => .error e
      | .ok l => .ok (s :: l)

/-- Modelled from the spec: the batch semantics of
`LLMClient.generate_batch` (and `generate_batch_async`, which the spec gives
identical observable semantics).  With `return_exceptions = true` every item
is attempted independently and failures are captured in place; with
`return_exceptions = false` the first failure aborts the call and no result
sequence is returned.  The concrete client implementations are not part of
the source excerpt; only the abstract interface is. -/
def generate_batch {V : Type} (gen : List (String × Option V) → Except GenError String)
    (inputs : List (String × List V)) (return_exceptions : Bool) :
    Except GenError (List (Except GenError String)) :=
  if return_exceptions then
    .ok ((batchItems inputs).map gen)
  else
    (collectOrRaise gen (batchItems inputs)).map (fun l => l.map Except.ok)

theorem numItems_of_common_length {V : Type} {inputs : List (String × List V)}
    {N : Nat} (hne : inputs ≠ [])
    (hlen : ∀ kv ∈ inputs, (kv.2 : List V).length = N) :
    numItems inputs = N := by
  cases inputs with
  | nil => exact absurd rfl hne
  | cons kv rest => exact hlen kv (List.mem_cons_self kv rest)

theorem batchItems_length {V : Type} (inputs : List (String × List V)) :
    (batchItems inputs).length = numItems inputs := by
  simp [batchItems]

theorem batchItems_get {V : Type} (inputs : List (String × List V))
    (i : Nat) (h : i < (batchItems inputs).length) :
    (batchItems inputs).get ⟨i, h⟩ = itemAt inputs i := by
  simp [batchItems]

theorem collectOrRaise_all_ok {α ε σ : Type} (gen : α → Except ε σ)
    (items : List α) (hok : ∀ x ∈ items, (gen x).isOk) :
    ∃ l, collectOrRaise gen items = .ok l ∧ l.length = items.length := by
  induction items with
  | nil => exact ⟨[], rfl, rfl⟩
  | cons x xs ih =>
    have hx := hok x (List.mem_cons_self x xs)
    obtain ⟨l, hl, hlen⟩ := ih (fun y hy => hok y (List.mem_cons_of_mem x hy))
    cases hgx : gen x with
    | error e => rw [hgx] at hx; simp [Except.isOk, Except.toBool] at hx
    | ok s => exact ⟨s :: l, by simp [collectOrRaise, hgx, hl], by simp [hlen]⟩

theorem collectOrRaise_first_error {α ε σ : Type} (gen : α → Except ε σ)
    (items : List α) (i : Nat) (hi : i < items.length) {e : ε}
    (herr : gen (items.get ⟨i, hi⟩) = .error e)
    (hpre : ∀ j (hj : j < i), (gen (items.get ⟨j, Nat.lt_trans hj hi⟩)).isOk) :
    collectOrRaise gen items = .error e := by
  induction items generalizing i with
  | nil => exact absurd hi (Nat.not_lt_zero i)
  | cons x xs ih =>
    cases i with
    | zero =>
      simp only [List.get] at herr
      simp [collectOrRaise, herr]
    | succ i' =>
      have hx : (gen x).isOk := by
        have := hpre 0 (Nat.succ_pos i')
        simpa using this
      cases hgx : gen x with
      | error e' => rw [hgx] at hx; simp [Except.isOk, Except.toBool] at hx
      | ok s =>
        have hi' : i' < xs.length := Nat.lt_of_succ_lt_succ hi
        have htail : collectOrRaise gen xs = .error e := by
          apply ih i' hi'
          · simpa using herr
          · intro j hj
            have := hpre (j + 1) (Nat.succ_lt_succ hj)
            simpa using this
        simp [collectOrRaise, hgx, htail]

/-- C1: `generate_batch` (and `generate_batch_async`, whose batch semantics
coincide) with `return_exceptions = true` over input sequences of common
length `N` returns a sequence of exactly length `N` in the original input
order; slot `i` is exactly the outcome of the `i`-th item alone — a captured
error object when that item fails, the generated text otherwise — so no slot
is affected by another item's failure. -/
theorem generate_batch_return_exceptions_isolates
    {V : Type} (gen : List (String × Option V) → Except GenError String)
    (inputs : List (String × List V)) (N : Nat)
    (hne : inputs ≠ [])
    (hlen : ∀ kv ∈ inputs, (kv.2 : List V).length = N) :
    ∃ l, generate_batch gen inputs true = .ok l ∧ l.length = N ∧
      ∀ i, i < N → l.get? i = some (gen (itemAt inputs i)) := by
  have hN : numItems inputs = N := numItems_of_common_length hne hlen
  refine ⟨(batchItems inputs).map gen, rfl, ?_, ?_⟩
  · simp [batchItems, hN]
  · intro i hi
    simp [batchItems, hN, List.getElem?_map, List.getElem?_range, hi]

/-- Witness for C1 at a concrete two-item batch in which the second item
fails: the result has length 2, slot 1 holds the captured error, slot 0 the
generated text. -/
theorem generate_batch_return_exceptions_isolates_witness :
    ∃ l, generate_batch
        (fun item => match item with
          | [("prompt", some "France")] => .ok "Paris"
          | _ => .error (.backend "boom"))
        [("prompt", ["France", "Atlantis"])] true = .ok l ∧ l.length = 2 ∧
      ∀ i, i < 2 → l.get? i = some
        ((fun item => match item with
          | [("prompt", some "France")] => .ok "Paris"
          | _ => .error (.backend "boom"))
          (itemAt [("prompt", ["France", "Atlantis"])] i)) := by
  exact generate_batch_return_exceptions_isolates
    (fun item => match item with
      | [("prompt", some "France")] => .ok "Paris"
      | _ => .error (.backend "boom"))
    [("prompt", ["France", "Atlantis"])] 2 (by decide) (by decide)

/-- C2: `generate_batch` with `return_exceptions = false` raises on the first
failing item and returns no result sequence at all (the error case carries no
list, so no partial sequence can be observed); when no item fails it returns
one text per input. -/
theorem generate_batch_raise_first_failure
    {V : Type} (gen : List (String × Option V) → Except GenError String)
    (inputs : List (String × List V)) (N : Nat)
    (hne : inputs ≠ [])
    (hlen : ∀ kv ∈ inputs, (kv.2 : List V).length = N) :
    (∀ i, i < N → (gen (itemAt inputs i)).isOk →
      ∀ e, gen (itemAt inputs i) ≠ .error e) ∧
    ((∀ i, i < N → (gen (itemAt inputs i)).isOk) →
      ∃ l, generate_batch gen inputs false = .ok l ∧ l.length = N) ∧
    (∀ i, i < N → ∀ e : GenError, gen (itemAt inputs i) = .error e →
      (∀ j, j < i → (gen (itemAt inputs j)).isOk) →
      generate_batch gen inputs false = .error e) := by
  have hN : numItems inputs = N := numItems_of_common_length hne hlen
  refine ⟨?_, ?_, ?_⟩
  · intro i _ hok e he
    rw [he] at hok
    simp [Except.isOk, Except.toBool] at hok
  · intro hok
    obtain ⟨l, hl, hlen'⟩ := collectOrRaise_all_ok gen (batchItems inputs)
      (by
        intro x hx
        obtain ⟨i, hi, rfl⟩ := List.mem_iff_get.mp hx
        rw [batchItems_get]
        exact hok i (by simpa [batchItems, hN] using i.isLt))
    refine ⟨l.map Except.ok, ?_, ?_⟩
    · simp [generate_batch, hl, Except.map]
    · simp [hlen', batchItems, hN]
  · intro i hi e he hpre
    have hib : i < (batchItems inputs).length := by
      simpa [batchItems, hN] using hi
    have herr : gen ((batchItems inputs).get ⟨i, hib⟩) = .error e := by
      rw [batchItems_get]; exact he
    have := collectOrRaise_first_error gen (batchItems inputs) i hib herr
      (by
        intro j hj
        rw [batchItems_get]
        exact hpre j hj)
    simp [generate_batch, this, Except.map]

/-- Witness for C2 at a concrete batch: with all items succeeding the call
returns two texts; with the first item failing the call returns that error
and no list. -/
theorem generate_batch_raise_first_failure_witness :
    ∃ l, generate_batch
        (fun item => match item with
          | [("prompt", some "France")] => Except.ok "Paris"
          | [("prompt", some "Spain")] => Except.ok "Madrid"
          | _ => Except.error (GenError.backend "boom"))
        [("prompt", ["France", "Spain"])] false = .ok l ∧ l.length = 2 := by
  have h := generate_batch_raise_first_failure
    (fun item => match item with
      | [("prompt", some "France")] => Except.ok "Paris"
      | [("prompt", some "Spain")] => Except.ok "Madrid"
      | _ => Except.error (GenError.backend "boom"))
    [("prompt", ["France", "Spain"])] 2 (by decide) (by decide)
  exact h.2.1 (by decide)

/-! ### LLM task-execution engine (claims C3–C7)

The engine, its nodes (`ExtracterNode`, `PromptTemplateNode`,
`LLMGenerateNode`), and `SimpleTaskHandler` are exercised by
`tests/llm/test_completion_pipe.py` but their implementations are not part of
the source excerpt; the definitions below are modelled from the spec
(§§3–4.5).  Cells of the tabular payload are strings, matching the
completion-pipeline scenario. -/

/-- Task Descriptor: a task kind plus its parameters.  The spec's `task_dict`
is modelled by its one recognised parameter, `input_keys` (the columns the
extraction node pulls). -/
structure LLMTask where
  task_type : String
  input_keys : List String
deriving DecidableEq, Repr

/-- A tabular payload: named columns of string cells, in column order. -/
abbrev DataFrame := List (String × List String)

/-- Unit of work (Control Message): a tabular payload plus an optional
attached Task Descriptor. -/
structure ControlMessage where
  payload : DataFrame
  task : Option LLMTask
deriving DecidableEq, Repr

/-- The four call shapes of a Generation Client, recorded in the run trace. -/
inductive ClientCall where
  | generateSync
  | generateAsync
  | generateBatchSync (return_exceptions : Bool)
  | generateBatchAsync (return_exceptions : Bool)
deriving DecidableEq, Repr

/-- Modelled from the spec: a Generation Client, abstracted by its per-prompt
backend behaviour.  Concrete clients (NeMo, OpenAI) are outside the source
excerpt. -/
structure LLMClient where
  gen : String → Except GenError String

/-- Single synchronous generation; records its call shape. -/
def LLMClient.generate (c : LLMClient) (prompt : String) :
    List ClientCall × Except GenError String :=
  ([.generateSync], c.gen prompt)

/-- Single asynchronous generation; records its call shape. -/
def LLMClient.generate_async (c : LLMClient) (prompt : String) :
    List ClientCall × Except GenError String :=
  ([.generateAsync], c.gen prompt)

/-- Batched synchronous generation over a prompt list; records its call
shape. -/
def LLMClient.generate_batch_prompts (c : LLMClient) (prompts : List String)
    (return_exceptions : Bool) :
    List ClientCall × Except GenError (List (Except GenError String)) :=
  ([.generateBatchSync return_exceptions],
    if return_exceptions then .ok (prompts.map c.gen)
    else (collectOrRaise c.gen prompts).map (fun l => l.map Except.ok))

/-- Batched asynchronous generation over a prompt list; records its call
shape. -/
def LLMClient.generate_batch_async_prompts (c : LLMClient) (prompts : List String)
    (return_exceptions : Bool) :
    List ClientCall × Except GenError (List (Except GenError String)) :=
  ([.generateBatchAsync return_exceptions],
    if return_exceptions then .ok (prompts.map c.gen)
    else (collectOrRaise c.gen prompts).map (fun l => l.map Except.ok))

/-- Per-execution engine errors (spec §7 taxonomy). -/
inductive EngineError where
  | missingTask
  | resolutionError (what : String)
  | formattingError (key : String)
  | nodeTypeError (node : String)
  | generationError (e : GenError)
  | shapeMismatch
  | noTaskHandler
deriving DecidableEq, Repr

/-- A prompt template: literal segments interleaved with variable
references (the `{{country}}` placeholders of the jinja template). -/
inductive TemplateSeg where
  | lit (s : String)
  | var (key : String)
deriving DecidableEq, Repr

abbrev Template := List TemplateSeg

/-- Look up a named field of one row. -/
def lookupField (row : List (String × String)) (k : String) : Option String :=
  (row.find? (fun f => f.1 == k)).map (fun f => f.2)

/-- Modelled from the spec: render a template over one row; a missing
template variable is a formatting error, never silently skipped. -/
def renderTemplate : Template → List (String × String) → Except EngineError String
  | [], _ => .ok ""
  | .lit s :: rest, row => (renderTemplate rest row).map (fun t => s ++ t)
  | .var k :: rest, row =>
    match lookupField row k with
    | none => .error (.formattingError k)
    | some v => (renderTemplate rest row).map (fun t => v ++ t)

/-- A node's produced output: an extracted column table, rendered prompt
texts, or per-item generation results. -/
inductive NodeOutput where
  | table (cols : List (String × List String))
  | texts (l : List String)
  | results (l : List (Except GenError String))

/-- The node implementations appearing in the completion pipeline. -/
inductive NodeImpl where
  | extracter
  | promptTemplate (t : Template)
  | llmGenerate (client : LLMClient)

/-- A registered node: its name, declared inputs, and implementation. -/
structure NodeEntry where
  name : String
  inputs : List String
  impl : NodeImpl

/-- A registered terminal task handler: its declared inputs and the payload
columns it writes (`SimpleTaskHandler`'s `output_columns`). -/
structure TaskHandlerEntry where
  inputs : List String
  output_columns : List String

/-- Modelled from the spec: the engine owns a registry of named nodes in
declaration order plus terminal task handlers. -/
structure LLMEngine where
  nodes : List NodeEntry
  handlers : List TaskHandlerEntry

/-- Observable events of one engine execution: node runs, client calls, and
handler runs. -/
inductive RunEvent where
  | nodeRun (name : String)
  | clientCall (call : ClientCall)
  | handlerRun
deriving DecidableEq, Repr

/-- The Node Invocation Context: node name → produced output, scoped to one
execution. -/
abbrev Context := List (String × NodeOutput)

def lookupOutput (ctx : Context) (n : String) : Option NodeOutput :=
  (ctx.find? (fun kv => kv.1 == n)).map (fun kv => kv.2)

/-- The node an input name refers to: `"/x"` names the output of node
`x`. -/
def inputTarget (inp : String) : Option String :=
  match inp.data with
  | '/' :: rest => some (String.mk rest)
  | _ => none

/-- Resolve one declared input from the Invocation Context. -/
def resolveInput (ctx : Context) (inp : String) : Except EngineError NodeOutput :=
  match inputTarget inp with
  | none => .error (.resolutionError inp)
  | some n =>
    match lookupOutput ctx n with
    | none => .error (.resolutionError inp)
    | some out => .ok out

def resolveInputs (ctx : Context) : List String → Except EngineError (List NodeOutput)
  | [] => .ok []
  | inp :: rest =>
    match resolveInput ctx inp with
    | .error e => .error e
    | .ok o => (resolveInputs ctx rest).map (fun l => o :: l)

/-- Look up a payload column by name. -/
def getColumn (df : DataFrame) (name : String) : Option (List String) :=
  (df.find? (fun c => c.1 == name)).map (fun c => c.2)

/-- Modelled from the spec: the extraction node reads the task's declared
input keys from the tabular payload, failing with a resolution error on a
missing column. -/
def extractColumns (df : DataFrame) : List String → Except EngineError (List (String × List String))
  | [] => .ok []
  | k :: ks =>
    match getColumn df k with
    | none => .error (.resolutionError k)
    | some col => (extractColumns df ks).map (fun rest => (k, col) :: rest)

/-- Row count of a column table: the length of its first column. -/
def tableNumRows (cols : List (String × List String)) : Nat :=
  match cols with
  | [] => 0
  | c :: _ => c.2.length

/-- The `i`-th row of a column table, as named fields. -/
def tableRowAt (cols : List (String × List String)) (i : Nat) :
    List (String × String) :=
  cols.filterMap (fun c => (c.2.get? i).map (fun v => (c.1, v)))

/-- The rows of a column table, in order. -/
def tableRows (cols : List (String × List String)) : List (List (String × String)) :=
  (List.range (tableNumRows cols)).map (tableRowAt cols)

/-- Modelled from the spec: run one node over the resolved inputs.  The
generation node calls the client's batched asynchronous operation with
`return_exceptions = true` and stores one text-or-error per item. -/
def execNode (task : LLMTask) (cm : ControlMessage) (ctx : Context)
    (entry : NodeEntry) : List RunEvent × Except EngineError NodeOutput :=
  match resolveInputs ctx entry.inputs with
  | .error e => ([], .error e)
  | .ok ins =>
    match entry.impl with
    | .extracter =>
      ([], (extractColumns cm.payload task.input_keys).map NodeOutput.table)
    | .promptTemplate t =>
      match ins with
      | [.table cols] =>
        ([], (collectOrRaise (renderTemplate t) (tableRows cols)).map NodeOutput.texts)
      | _ => ([], .error (.nodeTypeError entry.name))
    | .llmGenerate client =>
      match ins with
      | [.texts prompts] =>
        let r := client.generate_batch_async_prompts prompts true
        (r.1.map RunEvent.clientCall,
          match r.2 with
          | .ok l => .ok (NodeOutput.results l)
          | .error e => .error (.generationError e))
      | _ => ([], .error (.nodeTypeError entry.name))

/-- Execute the registered nodes in declaration order, threading the
Invocation Context and the event trace; a node failure aborts the whole
execution. -/
def runNodes (task : LLMTask) (cm : ControlMessage) :
    List NodeEntry → Context → List RunEvent × Except EngineError Context
  | [], ctx => ([], .ok ctx)
  | e :: rest, ctx =>
    let r := execNode task cm ctx e
    match r.2 with
    | .error err => (RunEvent.nodeRun e.name :: r.1, .error err)
    | .ok out =>
      let r' := runNodes task cm rest (ctx ++ [(e.name, out)])
      (RunEvent.nodeRun e.name :: (r.1 ++ r'.1), r'.2)

/-- Render a generation result as a payload cell: the text, or a captured
error marker for a failed item. -/
def resultCell : Except GenError String → String
  | .ok s => s
  | .error (.backend m) => "ERROR: " ++ m

/-- Convert a node output into one payload column for the simple task
handler. -/
def outputToColumn : NodeOutput → Except EngineError (List String)
  | .texts l => .ok l
  | .results l => .ok (l.map resultCell)
  | .table _ => .error (.nodeTypeError "task_handler")

/-- Write or replace one payload column. -/
def setColumn : DataFrame → String → List String → DataFrame
  | [], name, vals => [(name, vals)]
  | c :: rest, name, vals =>
    if c.1 == name then (name, vals) :: rest
    else c :: setColumn rest name vals

/-- Write the handler's output columns into the payload, in order. -/
def writeColumns (df : DataFrame) (names : List String) (vals : List (List String)) :
    DataFrame :=
  (names.zip vals).foldl (fun acc nv => setColumn acc nv.1 nv.2) df

/-- Modelled from the spec: the simple task handler writes each consumed
output into the payload, one column per declared output name, preserving row
order, and fails with a shape-mismatch error when an output's length differs
from the payload's row count. -/
def runHandler (cm : ControlMessage) (ctx : Context) (h : TaskHandlerEntry) :
    List RunEvent × Except EngineError (List ControlMessage) :=
  ([RunEvent.handlerRun],
    match resolveInputs ctx h.inputs with
    | .error e => .error e
    | .ok outs =>
      match collectOrRaise outputToColumn outs with
      | .error e => .error e
      | .ok colvals =>
        if colvals.all (fun v => v.length == tableNumRows cm.payload) then
          .ok [{ cm with payload := writeColumns cm.payload h.output_columns colvals }]
        else .error .shapeMismatch)

/-- Modelled from the spec: `engine.run`.  Reads the Task Descriptor (absent
→ missing-task error before any node runs), executes the nodes in
declaration order, then invokes the terminal task handler.  The excerpt's
pipeline registers a single handler; handler selection is modelled as taking
the first registered handler, with no handler a fatal error. -/
def LLMEngine.run (eng : LLMEngine) (cm : ControlMessage) :
    List RunEvent × Except EngineError (List ControlMessage) :=
  match cm.task with
  | none => ([], .error .missingTask)
  | some task =>
    let r := runNodes task cm eng.nodes []
    match r.2 with
    | .error e => (r.1, .error e)
    | .ok ctx =>
      match eng.handlers with
      | [] => (r.1, .error .noTaskHandler)
      | h :: _ =>
        let r2 := runHandler cm ctx h
        (r.1 ++ r2.1, r2.2)

def registeredNames (eng : LLMEngine) : List String :=
  eng.nodes.map (fun e => e.name)

/-- Validate a declared input list against the registered node names:
every input must name an already-registered node and must not name the node
being added. -/
def validateInputs (eng : LLMEngine) (name : String) :
    List String → Option ConfigError
  | [] => none
  | inp :: rest =>
    match inputTarget inp with
    | none => some (.unknownInput name inp)
    | some t =>
      if t == name then some (.selfReference name)
      else if (registeredNames eng).contains t then validateInputs eng name rest
      else some (.unknownInput name inp)

/-- Modelled from the spec: `add_node` registers a node, failing with a
configuration error on a duplicate name, a self-reference, or an input
referencing a node not yet registered. -/
def LLMEngine.add_node (eng : LLMEngine) (name : String) (inputs : List String)
    (impl : NodeImpl) : Except ConfigError LLMEngine :=
  if (registeredNames eng).contains name then .error (.duplicateName name)
  else
    match validateInputs eng name inputs with
    | some e => .error e
    | none => .ok { eng with nodes := eng.nodes ++ [⟨name, inputs, impl⟩] }

/-- Modelled from the spec: `add_task_handler` registers a terminal handler,
validating its declared inputs the same way as `add_node`. -/
def LLMEngine.add_task_handler (eng : LLMEngine) (inputs : List String)
    (output_columns : List String) : Except ConfigError LLMEngine :=
  match validateInputs eng "" inputs with
  | some e => .error e
  | none => .ok { eng with handlers := eng.handlers ++ [⟨inputs, output_columns⟩] }

/-! ### The completion pipeline scenario (`tests/llm/test_completion_pipe.py`) -/

/-- The template `"What is the capital of {{country}}?"`. -/
def capitalTemplate : Template :=
  [.lit "What is the capital of ", .var "country", .lit "?"]

/-- A stub client answering the two rendered prompts of the test scenario. -/
def capitalClient : LLMClient :=
  ⟨fun p =>
    if p = "What is the capital of France?" then .ok "Paris"
    else if p = "What is the capital of Spain?" then .ok "Madrid"
    else .error (.backend "unexpected prompt")⟩

/-- The engine of `_build_engine`: extracter → prompts → completion →
simple task handler, built through `add_node` / `add_task_handler`. -/
def buildCompletionEngine (t : Template) (client : LLMClient) :
    Except ConfigError LLMEngine := do
  let e ← LLMEngine.add_node ⟨[], []⟩ "extracter" [] .extracter
  let e ← e.add_node "prompts" ["/extracter"] (.promptTemplate t)
  let e ← e.add_node "completion" ["/prompts"] (.llmGenerate client)
  e.add_task_handler ["/completion"] ["response"]

/-- The same engine, written out directly. -/
def completionEngine (t : Template) (client : LLMClient) : LLMEngine :=
  { nodes := [⟨"extracter", [], .extracter⟩,
              ⟨"prompts", ["/extracter"], .promptTemplate t⟩,
              ⟨"completion", ["/prompts"], .llmGenerate client⟩],
    handlers := [⟨["/completion"], ["response"]⟩] }

/-- The completion task of the test: `{task_type: "completion", task_dict:
{input_keys: ["country"]}}`. -/
def completionTask : LLMTask := ⟨"completion", ["country"]⟩

/-- The test's unit of work: payload column `country = ["France","Spain"]`
with the completion task attached. -/
def franceSpainMessage : ControlMessage :=
  ⟨[("country", ["France", "Spain"])], some completionTask⟩

/-- C3: building the engine extracter → prompts → completion → simple
handler succeeds and yields exactly the four-entry graph, and running the
France/Spain unit of work against the stub client produces exactly the
payload `{country: ["France","Spain"], response: ["Paris","Madrid"]}`. -/
theorem completion_pipe_end_to_end :
    buildCompletionEngine capitalTemplate capitalClient =
      .ok (completionEngine capitalTemplate capitalClient) ∧
    ((completionEngine capitalTemplate capitalClient).run franceSpainMessage).2 =
      .ok [⟨[("country", ["France", "Spain"]), ("response", ["Paris", "Madrid"])],
            some completionTask⟩] := by
  constructor
  · rfl
  · rfl

theorem collectOrRaise_ok_length {α ε σ : Type} (gen : α → Except ε σ)
    {items : List α} {l : List σ} (h : collectOrRaise gen items = .ok l) :
    l.length = items.length := by
  induction items generalizing l with
  | nil =>
    simp only [collectOrRaise] at h
    cases h
    rfl
  | cons x xs ih =>
    simp only [collectOrRaise] at h
    cases hgx : gen x with
    | error e => rw [hgx] at h; exact absurd h (by simp)
    | ok s =>
      rw [hgx] at h
      cases hrest : collectOrRaise gen xs with
      | error e => rw [hrest] at h; exact absurd h (by simp)
      | ok l' =>
        rw [hrest] at h
        cases h
        simp [ih hrest]

theorem collectOrRaise_ok_get {α ε σ : Type} (gen : α → Except ε σ)
    {items : List α} {l : List σ} (h : collectOrRaise gen items = .ok l)
    (i : Nat) (x : α) (hx : items.get? i = some x) :
    ∃ s, l.get? i = some s ∧ gen x = .ok s := by
  induction items generalizing l i with
  | nil => simp at hx
  | cons y ys ih =>
    simp only [collectOrRaise] at h
    cases hgy : gen y with
    | error e => rw [hgy] at h; exact absurd h (by simp)
    | ok s =>
      rw [hgy] at h
      cases hrest : collectOrRaise gen ys with
      | error e => rw [hrest] at h; exact absurd h (by simp)
      | ok l' =>
        rw [hrest] at h
        cases h
        cases i with
        | zero =>
          simp only [List.get?] at hx
          cases hx
          exact ⟨s, rfl, hgy⟩
        | succ i' =>
          simp only [List.get?] at hx ⊢
          exact ih hrest i' hx

theorem tableRows_get (cols : List (String × List String)) (i : Nat)
    (hi : i < tableNumRows cols) :
    (tableRows cols).get? i = some (tableRowAt cols i) := by
  simp [tableRows, List.getElem?_map, List.getElem?_range, hi]

theorem getColumn_setColumn (df : DataFrame) (name : String) (vals : List String) :
    getColumn (setColumn df name vals) name = some vals := by
  induction df with
  | nil => simp [setColumn, getColumn, List.find?]
  | cons c rest ih =>
    by_cases h : (c.1 == name) = true
    · simp [setColumn, h, getColumn, List.find?]
    · simp only [setColumn, h]
      rw [if_neg (by simp [h])]
      simp only [getColumn, List.find?, h] at ih ⊢
      exact ih

/-- The full event trace of one successful completion-engine execution. -/
def completionTrace : List RunEvent :=
  [.nodeRun "extracter", .nodeRun "prompts", .nodeRun "completion",
   .clientCall (.generateBatchAsync true), .handlerRun]

theorem inputTarget_extracter : inputTarget "/extracter" = some "extracter" := rfl

theorem inputTarget_prompts : inputTarget "/prompts" = some "prompts" := rfl

theorem inputTarget_completion : inputTarget "/completion" = some "completion" := rfl

/-- Symbolic execution of the completion engine, extraction-failure
branch. -/
theorem completionEngine_run_extract_error (t : Template) (client : LLMClient)
    (df : DataFrame) (task : LLMTask) {e : EngineError}
    (hE : extractColumns df task.input_keys = .error e) :
    (completionEngine t client).run ⟨df, some task⟩ =
      ([.nodeRun "extracter"], .error e) := by
  simp [LLMEngine.run, completionEngine, runNodes, execNode, resolveInputs,
        hE, Except.map]

/-- Symbolic execution of the completion engine, templating-failure
branch. -/
theorem completionEngine_run_render_error (t : Template) (client : LLMClient)
    (df : DataFrame) (task : LLMTask) {cols : List (String × List String)}
    {e : EngineError}
    (hE : extractColumns df task.input_keys = .ok cols)
    (hR : collectOrRaise (renderTemplate t) (tableRows cols) = .error e) :
    (completionEngine t client).run ⟨df, some task⟩ =
      ([.nodeRun "extracter", .nodeRun "prompts"], .error e) := by
  simp [LLMEngine.run, completionEngine, runNodes, execNode, resolveInputs,
        resolveInput, inputTarget_extracter, lookupOutput, hE, hR, Except.map]

/-- Symbolic execution of the completion engine when extraction and
templating succeed: the generation node captures one result per prompt and
the simple handler shape-checks and writes the `response` column. -/
theorem completionEngine_run_ok (t : Template) (client : LLMClient)
    (df : DataFrame) (task : LLMTask) {cols : List (String × List String)}
    {ps : List String}
    (hE : extractColumns df task.input_keys = .ok cols)
    (hR : collectOrRaise (renderTemplate t) (tableRows cols) = .ok ps) :
    (completionEngine t client).run ⟨df, some task⟩ =
      (completionTrace,
        if (ps.map (fun p => resultCell (client.gen p))).length == tableNumRows df then
          .ok [⟨setColumn df "response"
                  (ps.map (fun p => resultCell (client.gen p))), some task⟩]
        else .error .shapeMismatch) := by
  simp [LLMEngine.run, completionEngine, runNodes, execNode, resolveInputs,
        resolveInput, inputTarget_extracter, inputTarget_prompts,
        inputTarget_completion, lookupOutput, hE, hR, runHandler,
        LLMClient.generate_batch_async_prompts, outputToColumn, collectOrRaise,
        writeColumns, completionTrace, Function.comp_def, Except.map,
        List.find?, List.zip, List.zipWith, List.foldl]

/-- C4: in every successful execution of the extraction → template →
generation chain, the task handler's written results follow the identity
permutation: the `response` column has one entry per payload row, and its
`i`-th entry is the generation result of the prompt rendered from the `i`-th
extracted input row — for every payload, template, client and task. -/
theorem engine_output_order_matches_input_order
    (t : Template) (client : LLMClient) (df : DataFrame) (task : LLMTask)
    (tr : List RunEvent) (outs : List ControlMessage)
    (h : (completionEngine t client).run ⟨df, some task⟩ = (tr, .ok outs)) :
    ∃ cols ps out resp,
      extractColumns df task.input_keys = .ok cols ∧
      collectOrRaise (renderTemplate t) (tableRows cols) = .ok ps ∧
      outs = [out] ∧ out.task = some task ∧
      getColumn out.payload "response" = some resp ∧
      resp.length = tableNumRows df ∧
      ∀ i, i < resp.length →
        ∃ p, renderTemplate t (tableRowAt cols i) = .ok p ∧
          resp.get? i = some (resultCell (client.gen p)) := by
  cases hE : extractColumns df task.input_keys with
  | error e =>
    rw [completionEngine_run_extract_error t client df task hE] at h
    exact absurd (congrArg Prod.snd h) (by simp)
  | ok cols =>
    cases hR : collectOrRaise (renderTemplate t) (tableRows cols) with
    | error e =>
      rw [completionEngine_run_render_error t client df task hE hR] at h
      exact absurd (congrArg Prod.snd h) (by simp)
    | ok ps =>
      rw [completionEngine_run_ok t client df task hE hR] at h
      by_cases hlen :
          ((ps.map (fun p => resultCell (client.gen p))).length ==
            tableNumRows df) = true
      · rw [if_pos hlen] at h
        have houts : outs =
            [⟨setColumn df "response" (ps.map (fun p => resultCell (client.gen p))),
              some task⟩] := by
          have := congrArg Prod.snd h
          simpa using this.symm
        refine ⟨cols, ps,
          ⟨setColumn df "response" (ps.map (fun p => resultCell (client.gen p))),
            some task⟩,
          ps.map (fun p => resultCell (client.gen p)),
          rfl, hR, houts, rfl, getColumn_setColumn df _ _, ?_, ?_⟩
        · simpa using hlen
        · intro i hi
          have hlen' : ps.length = (tableRows cols).length :=
            collectOrRaise_ok_length (renderTemplate t) hR
          have hi' : i < ps.length := by simpa using hi
          have hirows : i < tableNumRows cols := by
            have := Nat.lt_of_lt_of_le hi' (Nat.le_of_eq hlen')
            simpa [tableRows] using this
          obtain ⟨p, hp, hgen⟩ := collectOrRaise_ok_get (renderTemplate t) hR i
            (tableRowAt cols i) (tableRows_get cols i hirows)
          refine ⟨p, hgen, ?_⟩
          simp only [List.get?_eq_getElem?, List.getElem?_map]
          simp only [List.get?_eq_getElem?] at hp
          rw [hp]
          rfl
      · rw [if_neg hlen] at h
        exact absurd (congrArg Prod.snd h) (by simp)

/-- Witness for C4 at the France/Spain scenario: the successful run's
`response` column is aligned row-by-row with the extracted input rows. -/
theorem engine_output_order_matches_input_order_witness :
    ∃ cols ps out resp,
      extractColumns [("country", ["France", "Spain"])] completionTask.input_keys
        = .ok cols ∧
      collectOrRaise (renderTemplate capitalTemplate) (tableRows cols) = .ok ps ∧
      [(⟨[("country", ["France", "Spain"]), ("response", ["Paris", "Madrid"])],
          some completionTask⟩ : ControlMessage)] = [out] ∧
      out.task = some completionTask ∧
      getColumn out.payload "response" = some resp ∧
      resp.length = tableNumRows [("country", ["France", "Spain"])] ∧
      ∀ i, i < resp.length →
        ∃ p, renderTemplate capitalTemplate (tableRowAt cols i) = .ok p ∧
          resp.get? i = some (resultCell (capitalClient.gen p)) :=
  engine_output_order_matches_input_order capitalTemplate capitalClient
    [("country", ["France", "Spain"])] completionTask completionTrace
    [⟨[("country", ["France", "Spain"]), ("response", ["Paris", "Madrid"])],
      some completionTask⟩]
    (by rfl)

/-- C5: in every execution of the completion engine, the only client call
shape ever recorded is the batched asynchronous one with
`return_exceptions = true` (the synchronous `generate` / `generate_batch`
paths are never invoked); and whenever extraction and templating succeed
with one prompt per payload row, the run completes successfully for every
client — a failing prompt never aborts the batch — storing one
text-or-captured-error per item in the `response` column. -/
theorem generation_node_calls_batch_async_only
    (t : Template) (client : LLMClient) (cm : ControlMessage) :
    (∀ call, RunEvent.clientCall call ∈ ((completionEngine t client).run cm).1 →
      call = .generateBatchAsync true) ∧
    (∀ df task cols ps, cm = ⟨df, some task⟩ →
      extractColumns df task.input_keys = .ok cols →
      collectOrRaise (renderTemplate t) (tableRows cols) = .ok ps →
      ps.length = tableNumRows df →
      ((completionEngine t client).run cm).2 =
        .ok [⟨setColumn df "response" (ps.map (fun p => resultCell (client.gen p))),
              some task⟩]) := by
  constructor
  · intro call hmem
    obtain ⟨df, mtask⟩ := cm
    cases mtask with
    | none => simp [LLMEngine.run] at hmem
    | some task =>
      cases hE : extractColumns df task.input_keys with
      | error e =>
        rw [completionEngine_run_extract_error t client df task hE] at hmem
        simp at hmem
      | ok cols =>
        cases hR : collectOrRaise (renderTemplate t) (tableRows cols) with
        | error e =>
          rw [completionEngine_run_render_error t client df task hE hR] at hmem
          simp at hmem
        | ok ps =>
          rw [completionEngine_run_ok t client df task hE hR] at hmem
          simp [completionTrace] at hmem
          exact hmem
  · intro df task cols ps hcm hE hR hlen
    subst hcm
    rw [completionEngine_run_ok t client df task hE hR]
    simp [hlen]

/-- Witness for C5: with countries `["France","Atlantis"]` the stub client
fails on the second rendered prompt, yet the concrete run still succeeds and
stores the text for row 0 and a captured error marker for row 1; the one
client call in its trace is the batched asynchronous call with
`return_exceptions = true`. -/
theorem generation_node_calls_batch_async_only_witness :
    ClientCall.generateBatchAsync true = .generateBatchAsync true ∧
    ((completionEngine capitalTemplate capitalClient).run
        ⟨[("country", ["France", "Atlantis"])], some completionTask⟩).2 =
      .ok [⟨[("country", ["France", "Atlantis"]),
             ("response", ["Paris", "ERROR: unexpected prompt"])],
            some completionTask⟩] := by
  have h := generation_node_calls_batch_async_only capitalTemplate capitalClient
    ⟨[("country", ["France", "Atlantis"])], some completionTask⟩
  constructor
  · exact h.1 (.generateBatchAsync true) (by decide)
  · exact h.2 [("country", ["France", "Atlantis"])] completionTask
      [("country", ["France", "Atlantis"])]
      ["What is the capital of France?", "What is the capital of Atlantis?"]
      rfl (by rfl) (by rfl) (by rfl)

theorem validateInputs_eq_none {eng : LLMEngine} {name : String}
    {inputs : List String} (h : validateInputs eng name inputs = none) :
    ∀ inp ∈ inputs, ∃ tgt, inputTarget inp = some tgt ∧ (tgt == name) = false ∧
      (registeredNames eng).contains tgt = true := by
  induction inputs with
  | nil => simp
  | cons inp rest ih =>
    cases hT : inputTarget inp with
    | none => simp [validateInputs, hT] at h
    | some tgt =>
      simp only [validateInputs, hT] at h
      by_cases hself : (tgt == name) = true
      · rw [if_pos hself] at h; exact absurd h (by simp)
      · rw [if_neg hself] at h
        by_cases hreg : (registeredNames eng).contains tgt = true
        · rw [if_pos hreg] at h
          intro x hx
          rcases List.mem_cons.mp hx with hx | hx
          · subst hx
            exact ⟨tgt, hT, Bool.eq_false_iff.mpr hself ▸ rfl, hreg⟩
          · exact ih h x hx
        · rw [if_neg hreg] at h; exact absurd h (by simp)

/-- C6: `add_node` rejects bad wiring at registration time: a name collision
with an already-registered node, an input referencing the node itself
(self-reference), or an input not referencing an already-registered node
(forward reference / unresolvable input) each make `add_node` return a
configuration error, so no engine with such a graph ever exists to be
run. -/
theorem add_node_rejects_bad_wiring (eng : LLMEngine) (name : String)
    (inputs : List String) (impl : NodeImpl)
    (h : (registeredNames eng).contains name = true ∨
         (∃ inp ∈ inputs, inputTarget inp = some name) ∨
         (∃ inp ∈ inputs, ∀ tgt, inputTarget inp = some tgt →
            (registeredNames eng).contains tgt = false)) :
    ∃ e, eng.add_node name inputs impl = .error e := by
  by_cases hdup : (registeredNames eng).contains name = true
  · have hdup' : name ∈ registeredNames eng := by simpa using hdup
    exact ⟨.duplicateName name, by simp [LLMEngine.add_node, hdup']⟩
  · have hdup' : name ∉ registeredNames eng := by simpa using hdup
    cases hV : validateInputs eng name inputs with
    | some e =>
      exact ⟨e, by simp [LLMEngine.add_node, hdup', hV]⟩
    | none =>
      exfalso
      rcases h with h | ⟨inp, hmem, hself⟩ | ⟨inp, hmem, hfwd⟩
      · exact hdup h
      · obtain ⟨tgt, hT, hne, _⟩ := validateInputs_eq_none hV inp hmem
        rw [hself] at hT
        cases hT
        simp at hne
      · obtain ⟨tgt, hT, _, hreg⟩ := validateInputs_eq_none hV inp hmem
        rw [hfwd tgt hT] at hreg
        exact Bool.false_ne_true hreg

/-- Witness for C6: adding a node `"a"` whose input references the
unregistered node `"b"` to the empty engine fails with a configuration
error. -/
theorem add_node_rejects_bad_wiring_witness :
    ∃ e, LLMEngine.add_node ⟨[], []⟩ "a" ["/b"] .extracter = .error e :=
  add_node_rejects_bad_wiring ⟨[], []⟩ "a" ["/b"] .extracter
    (Or.inr (Or.inr ⟨"/b", by simp, by intro tgt hT; cases hT; rfl⟩))

/-- C7: running an engine on a unit of work carrying no Task Descriptor
fails with the missing-task error and its event trace is empty: no node
runs, no client call is made, and no task handler runs. -/
theorem run_missing_task_runs_zero_nodes (eng : LLMEngine) (cm : ControlMessage)
    (h : cm.task = none) :
    eng.run cm = ([], .error .missingTask) := by
  simp [LLMEngine.run, h]

/-- Witness for C7: the completion engine on a France/Spain payload without
an attached task yields the missing-task error and an empty trace. -/
theorem run_missing_task_runs_zero_nodes_witness :
    (completionEngine capitalTemplate capitalClient).run
      ⟨[("country", ["France", "Spain"])], none⟩ =
      ([], .error .missingTask) :=
  run_missing_task_runs_zero_nodes (completionEngine capitalTemplate capitalClient)
    ⟨[("country", ["France", "Spain"])], none⟩ rfl

/-! ### Generation Service (claim C8)

`LLMService` in `llm_service.py` is an abstract factory; the validation
behaviour of `get_client` is modelled from the spec. -/

/-- Modelled from the spec: a Generation Service as configuration — the set
of model names the backend supports, and the client constructor for a
supported model. -/
structure LLMService where
  supported_models : List String
  make_client : String → LLMClient

/-- Modelled from the spec: `get_client(model_name, **kwargs)` validates the
model name at client-construction time: an empty name or an
unknown/unsupported name is a configuration error, raised before any
generation call could be issued. -/
def LLMService.get_client (svc : LLMService) (model_name : String) :
    Except ConfigError LLMClient :=
  if model_name = "" then .error .emptyModelName
  else if svc.supported_models.contains model_name then
    .ok (svc.make_client model_name)
  else .error (.unknownModel model_name)

/-- C8: `get_client` validates `model_name` is non-empty and rejects
unknown/unsupported model names with a configuration error at
client-construction time; consequently a client is only ever constructed
for a non-empty, supported model name, so the failure is never deferred to
a generation call. -/
theorem get_client_validates_at_construction (svc : LLMService)
    (model_name : String) :
    (model_name = "" → svc.get_client model_name = .error .emptyModelName) ∧
    (model_name ≠ "" → svc.supported_models.contains model_name = false →
      svc.get_client model_name = .error (.unknownModel model_name)) ∧
    (∀ c, svc.get_client model_name = .ok c →
      model_name ≠ "" ∧ svc.supported_models.contains model_name = true) := by
  refine ⟨?_, ?_, ?_⟩
  · intro h
    simp [LLMService.get_client, h]
  · intro hne hunk
    have hunk' : model_name ∉ svc.supported_models := by simpa using hunk
    simp [LLMService.get_client, hne, hunk']
  · intro c hc
    by_cases hne : model_name = ""
    · simp [LLMService.get_client, hne] at hc
    · by_cases hsup : svc.supported_models.contains model_name = true
      · exact ⟨hne, hsup⟩
      · have hsup' : model_name ∉ svc.supported_models := by simpa using hsup
        simp [LLMService.get_client, hne, hsup'] at hc

/-- Witness for C8 on a concrete service supporting only `"test_model"`:
the empty name and an unknown name fail at construction, and the supported
name constructs a client. -/
theorem get_client_validates_at_construction_witness :
    (LLMService.get_client ⟨["test_model"], fun _ => capitalClient⟩ "" =
      .error .emptyModelName) ∧
    (LLMService.get_client ⟨["test_model"], fun _ => capitalClient⟩ "bogus" =
      .error (.unknownModel "bogus")) := by
  have h1 := get_client_validates_at_construction
    ⟨["test_model"], fun _ => capitalClient⟩ ""
  have h2 := get_client_validates_at_construction
    ⟨["test_model"], fun _ => capitalClient⟩ "bogus"
  exact ⟨h1.1 rfl, h2.2.1 (by decide) (by decide)⟩

/-! ### FIL preprocessing stage (claims C9 and C10)

Translated from `morpheus/stages/preprocess/preprocess_fil_stage.py`
(`PreprocessFILStage.__init__` and
`PreprocessFILStage.process_control_message`).  A float32 value is modelled
symbolically: `F32.num i` is the float32 holding the integral value `i` (the
IEEE encoding itself is abstracted), `F32.nan` the NaN produced when
`str.extract` finds no digits. -/

namespace FIL

inductive F32 where
  | num (i : Int)
  | nan
deriving DecidableEq, Repr

/-- A payload column's data, tagged by its dtype as the stage's dtype checks
see it: a string/object column, an already-float32 column, or another
numeric dtype. -/
inductive ColData where
  | strCol (vals : List String)
  | f32Col (vals : List F32)
  | intCol (vals : List Int)
deriving DecidableEq, Repr

def ColData.length : ColData → Nat
  | .strCol v => v.length
  | .f32Col v => v.length
  | .intCol v => v.length

/-- The longest run of digits starting at the head of the list. -/
def takeDigits : List Char → List Char
  | [] => []
  | c :: rest => if c.isDigit then c :: takeDigits rest else []

/-- The first maximal digit run of a character list — the first match of the
regex `(\d+)`. -/
def firstDigitRun : List Char → Option (List Char)
  | [] => none
  | c :: rest => if c.isDigit then some (c :: takeDigits rest) else firstDigitRun rest

def digitsToNat (ds : List Char) : Nat :=
  ds.foldl (fun acc c => 10 * acc + (c.toNat - '0'.toNat)) 0

/-- `df[col].str.extract(r"(\d+)", expand=False).astype("float32")` on one
cell: parse the first digit run as a number; no match gives NaN. -/
def convertStrCell (s : String) : F32 :=
  match firstDigitRun s.data with
  | some ds => .num (digitsToNat ds)
  | none => .nan

/-- The per-column dtype dispatch of `process_control_message`: string
columns go through digit extraction, float32 columns are untouched, any
other numeric dtype is cast to float32. -/
def convertColumn : ColData → List F32
  | .strCol vals => vals.map convertStrCell
  | .f32Col vals => vals
  | .intCol vals => vals.map (fun i => .num i)

/-- A cudf DataFrame: a row count plus named columns (every column of a
well-formed frame has `nrows` cells). -/
structure DataFrame where
  nrows : Nat
  cols : List (String × ColData)

inductive FILError where
  | keyError
  | assertionError
deriving DecidableEq, Repr

def lookupCol (cols : List (String × ColData)) (name : String) : Option ColData :=
  (cols.find? (fun c => c.1 == name)).map (fun c => c.2)

/-- `x.payload().get_data(fea_cols)`: select the requested feature columns
in order; a missing column raises `KeyError`. -/
def getData (df : DataFrame) : List String → Except FILError (List ColData)
  | [] => .ok []
  | c :: cs =>
    match lookupCol df.cols c with
    | none => .error .keyError
    | some col => (getData df cs).map (fun rest => col :: rest)

/-- The `uint32` value of an integer, as cupy stores it. -/
def u32 (i : Int) : Nat := (i % 4294967296).toNat

/-- The tensor bundle attached by the stage: `count`, the row-major
`input__0` feature matrix, and the `count`-by-3 `seq_ids` array. -/
structure TensorMemory where
  count : Nat
  input0 : List (List F32)
  seq_ids : List (List Nat)
deriving DecidableEq, Repr

/-- A ControlMessage as the FIL stage sees it: a tabular payload plus an
optional attached tensor bundle. -/
structure FILControlMessage where
  payload : DataFrame
  tensors : Option TensorMemory

/-- Row `i` of `df.to_cupy()` over the converted feature columns. -/
def matrixRowAt (conv : List (List F32)) (i : Nat) : List F32 :=
  conv.map (fun col => col.getD i F32.nan)

/-- The stage under verification. -/
structure PreprocessFILStage where
  fea_length : Int
  features : List String

/-- `PreprocessFILStage.process_control_message`: select the feature
columns (KeyError propagates, leaving the message without tensors), convert
each to float32, build the row-major matrix, build `seq_ids` with row `i` =
`(i, 0, fea_len - 1)` in uint32, and attach the tensor bundle to the same
message. -/
def PreprocessFILStage.process_control_message (x : FILControlMessage)
    (fea_len : Int) (fea_cols : List String) :
    Except FILError FILControlMessage :=
  match getData x.payload fea_cols with
  | .error e => .error e
  | .ok cols =>
    let conv := cols.map convertColumn
    let count := x.payload.nrows
    let data := (List.range count).map (matrixRowAt conv)
    let seg_ids := (List.range count).map
      (fun i => [i % 4294967296, 0, u32 (fea_len - 1)])
    .ok { x with tensors := some ⟨count, data, seg_ids⟩ }

/-- The pipeline `Config` fields the stage reads. -/
structure Config where
  feature_length : Int
  fil_feature_columns : List String

/-- `PreprocessFILStage.__init__`: stores `c.feature_length` and
`c.fil.feature_columns` and asserts they agree, before any message is
processed. -/
def PreprocessFILStage.init (c : Config) : Except FILError PreprocessFILStage :=
  if c.feature_length = (c.fil_feature_columns.length : Int) then
    .ok ⟨c.feature_length, c.fil_feature_columns⟩
  else .error .assertionError

theorem getData_all_present {df : DataFrame} {fea_cols : List String}
    (h : ∀ k ∈ fea_cols, (lookupCol df.cols k).isSome) :
    ∃ cols, getData df fea_cols = .ok cols ∧
      cols.length = fea_cols.length ∧
      ∀ i k, fea_cols.get? i = some k →
        ∃ col, lookupCol df.cols k = some col ∧ cols.get? i = some col := by
  induction fea_cols with
  | nil => exact ⟨[], rfl, rfl, by simp⟩
  | cons c cs ih =>
    have hc := h c (List.mem_cons_self c cs)
    cases hlc : lookupCol df.cols c with
    | none => rw [hlc] at hc; simp at hc
    | some col =>
      obtain ⟨cols, hcols, hlen, hget⟩ := ih (fun k hk => h k (List.mem_cons_of_mem c hk))
      refine ⟨col :: cols, by simp [getData, hlc, hcols, Except.map], by simp [hlen], ?_⟩
      intro i k hik
      cases i with
      | zero =>
        simp only [List.get?] at hik
        cases hik
        exact ⟨col, hlc, rfl⟩
      | succ i' =>
        simp only [List.get?] at hik ⊢
        exact hget i' k hik

theorem getData_missing {df : DataFrame} {fea_cols : List String}
    (h : ∃ k ∈ fea_cols, lookupCol df.cols k = none) :
    getData df fea_cols = .error .keyError := by
  induction fea_cols with
  | nil => simp at h
  | cons c cs ih =>
    obtain ⟨k, hk, hnone⟩ := h
    rcases List.mem_cons.mp hk with hk | hk
    · subst hk
      simp [getData, hnone]
    · cases hlc : lookupCol df.cols c with
      | none => simp [getData, hlc]
      | some col =>
        simp [getData, hlc, ih ⟨k, hk, hnone⟩, Except.map]

/-- C9: when every requested feature column is present,
`process_control_message` returns the same message with a tensor bundle
attached whose `count` is the payload's row count, whose `input__0` row `i`
holds, per requested column, the float32 conversion of that column's `i`-th
cell, and whose `seq_ids` row `i` is the uint32 triple `(i, 0, fea_len -
1)`; when a requested column is absent it fails with `KeyError` and attaches
nothing. -/
theorem process_control_message_spec (x : FILControlMessage) (fea_len : Int)
    (fea_cols : List String)
    (hcount : x.payload.nrows < 4294967296)
    (hfl1 : 1 ≤ fea_len) (hfl2 : fea_len ≤ 4294967296) :
    ((∀ k ∈ fea_cols, (lookupCol x.payload.cols k).isSome) →
      ∃ cols tm,
        getData x.payload fea_cols = .ok cols ∧
        PreprocessFILStage.process_control_message x fea_len fea_cols =
          .ok { x with tensors := some tm } ∧
        tm.count = x.payload.nrows ∧
        tm.input0.length = tm.count ∧
        (∀ i, i < tm.count → ∃ row,
          tm.input0.get? i = some row ∧ row.length = fea_cols.length ∧
          ∀ j k, fea_cols.get? j = some k → ∃ col,
            lookupCol x.payload.cols k = some col ∧
            row.get? j = some ((convertColumn col).getD i F32.nan)) ∧
        tm.seq_ids.length = tm.count ∧
        (∀ i, i < tm.count →
          tm.seq_ids.get? i = some [i, 0, (fea_len - 1).toNat])) ∧
    ((∃ k ∈ fea_cols, lookupCol x.payload.cols k = none) →
      PreprocessFILStage.process_control_message x fea_len fea_cols =
        .error .keyError) := by
  constructor
  · intro hpresent
    obtain ⟨cols, hcols, hlen, hget⟩ := getData_all_present hpresent
    refine ⟨cols,
      ⟨x.payload.nrows,
        (List.range x.payload.nrows).map (matrixRowAt (cols.map convertColumn)),
        (List.range x.payload.nrows).map
          (fun i => [i % 4294967296, 0, u32 (fea_len - 1)])⟩,
      hcols, ?_, rfl, by simp, ?_, by simp, ?_⟩
    · simp [PreprocessFILStage.process_control_message, hcols]
    · intro i hi
      refine ⟨matrixRowAt (cols.map convertColumn) i, ?_, ?_, ?_⟩
      · simp [List.get?_eq_getElem?, List.getElem?_map, List.getElem?_range, hi]
      · simp [matrixRowAt, hlen]
      · intro j k hjk
        obtain ⟨col, hlc, hcj⟩ := hget j k hjk
        refine ⟨col, hlc, ?_⟩
        simp only [matrixRowAt, List.get?_eq_getElem?, List.getElem?_map]
        simp only [List.get?_eq_getElem?] at hcj
        rw [hcj]
        rfl
    · intro i hi
      have hi' : i < x.payload.nrows := hi
      have h1 : i % 4294967296 = i := by omega
      have h2 : u32 (fea_len - 1) = (fea_len - 1).toNat := by
        simp only [u32]
        omega
      simp [List.get?_eq_getElem?, List.getElem?_map, List.getElem?_range, hi,
            h1, h2]
  · intro hmissing
    simp [PreprocessFILStage.process_control_message, getData_missing hmissing]

/-- A concrete message exercising all three dtype paths: a string column
(digit extraction), an int column (float32 cast), and a float32 column. -/
def filTestMessage : FILControlMessage :=
  ⟨⟨2, [("f1", .strCol ["abc123x", "nope"]),
        ("f2", .intCol [5, 7]),
        ("f3", .f32Col [.num 1, .nan])]⟩, none⟩

/-- Witness for C9 on `filTestMessage` with `fea_len = 3`: all columns
present yields the attached tensors, and requesting a missing column yields
`KeyError`. -/
theorem process_control_message_spec_witness :
    (∃ cols tm,
      getData filTestMessage.payload ["f1", "f2", "f3"] = .ok cols ∧
      PreprocessFILStage.process_control_message filTestMessage 3 ["f1", "f2", "f3"] =
        .ok { filTestMessage with tensors := some tm } ∧
      tm.count = filTestMessage.payload.nrows ∧
      tm.input0.length = tm.count ∧
      (∀ i, i < tm.count → ∃ row,
        tm.input0.get? i = some row ∧ row.length = (["f1", "f2", "f3"] : List String).length ∧
        ∀ j k, (["f1", "f2", "f3"] : List String).get? j = some k → ∃ col,
          lookupCol filTestMessage.payload.cols k = some col ∧
          row.get? j = some ((convertColumn col).getD i F32.nan)) ∧
      tm.seq_ids.length = tm.count ∧
      (∀ i, i < tm.count →
        tm.seq_ids.get? i = some [i, 0, ((3 : Int) - 1).toNat])) ∧
    PreprocessFILStage.process_control_message filTestMessage 3 ["f1", "missing"] =
      .error .keyError :=
  ⟨(process_control_message_spec filTestMessage 3 ["f1", "f2", "f3"]
      (by decide) (by decide) (by decide)).1
      (by intro k hk; fin_cases hk <;> decide),
   (process_control_message_spec filTestMessage 3 ["f1", "missing"]
      (by decide) (by decide) (by decide)).2
      ⟨"missing", by decide, by decide⟩⟩

/-- C10: constructing `PreprocessFILStage` from a `Config` succeeds exactly
when `feature_length` equals the number of configured feature columns;
otherwise the constructor's assertion fails before any message is
processed. -/
theorem preprocess_fil_init_asserts (c : Config) :
    ((∃ s, PreprocessFILStage.init c = .ok s) ↔
      c.feature_length = (c.fil_feature_columns.length : Int)) ∧
    (c.feature_length ≠ (c.fil_feature_columns.length : Int) →
      PreprocessFILStage.init c = .error .assertionError) := by
  constructor
  · constructor
    · rintro ⟨s, hs⟩
      by_contra hne
      simp [PreprocessFILStage.init, hne] at hs
    · intro h
      exact ⟨⟨c.feature_length, c.fil_feature_columns⟩,
        by simp [PreprocessFILStage.init, h]⟩
  · intro hne
    simp [PreprocessFILStage.init, hne]

/-- Witness for C10: a matching configuration constructs the stage and a
mismatched one fails the assertion. -/
theorem preprocess_fil_init_asserts_witness :
    (∃ s, PreprocessFILStage.init ⟨2, ["a", "b"]⟩ = .ok s) ∧
    PreprocessFILStage.init ⟨3, ["a"]⟩ = .error .assertionError :=
  ⟨(preprocess_fil_init_asserts ⟨2, ["a", "b"]⟩).1.mpr (by decide),
   (preprocess_fil_init_asserts ⟨3, ["a"]⟩).2 (by decide)⟩

end FIL

end Morpheus
